import Mathlib

/-!
Verification of the GraphQL query-builder core of the trade-data MCP server:
the literal serializer `toGraphQLLiteral`, the resolver registry
`RESOLVER_REGISTRY`, the aggregation block builder `buildAggregationBlock`
and the query assembler `buildQuery`, shallowly embedded from the
JavaScript source (`utils/query-builder.js`).
-/

namespace QueryBuilder

/-- JSON-like JavaScript values as handled by the serializer:
null (also modelling `undefined`, which the source maps to the same
output), booleans, numbers (the parameters in this system are integers),
strings, arrays and plain objects (ordered key/value lists, keys unique). -/
inductive Json where
  | null : Json
  | boolean : Bool → Json
  | num : Int → Json
  | str : String → Json
  | arr : List Json → Json
  | obj : List (String × Json) → Json

/-- `const GRAPHQL_ENUMS = new Set(['ASC', 'DESC'])` — membership in this
set is exact string equality. -/
def GRAPHQL_ENUMS : List String := ["ASC", "DESC"]

/-- One character of JSON string escaping, as performed by
`JSON.stringify` on the contents of a string: `"` and `\` are
backslash-escaped, the common control characters get their short escapes,
the remaining control characters are emitted as `\u00xx`. -/
def escChar (c : Char) : List Char :=
  if c = '"' then ['\\', '"']
  else if c = '\\' then ['\\', '\\']
  else if c = '\n' then ['\\', 'n']
  else if c = '\r' then ['\\', 'r']
  else if c = '\t' then ['\\', 't']
  else if c = '\x08' then ['\\', 'b']
  else if c = '\x0c' then ['\\', 'f']
  else if c.toNat < 32 then
    ['\\', 'u', Nat.digitChar (c.toNat / 4096 % 16), Nat.digitChar (c.toNat / 256 % 16),
      Nat.digitChar (c.toNat / 16 % 16), Nat.digitChar (c.toNat % 16)]
  else [c]

/-- `JSON.stringify` applied to a string: the double-quoted, escaped
JSON string literal. -/
def jsonStringify (s : String) : String :=
  ⟨'"' :: (s.data.flatMap escChar ++ ['"'])⟩

/-- JavaScript `Array.prototype.join(sep)`. -/
def joinSep (sep : String) : List String → String
  | [] => ""
  | [x] => x
  | x :: y :: xs => x ++ sep ++ joinSep sep (y :: xs)

mutual

/-- The function `toGraphQLLiteral` from `utils/query-builder.js`:
converts a value to its GraphQL inline-literal text.  Numbers and
booleans print bare, a string equal to a member of `GRAPHQL_ENUMS`
prints unquoted, any other string is JSON-quoted, arrays map the
serializer over the elements and join with a comma, objects emit
`key: value` entries with bare keys. -/
def toGraphQLLiteral : Json → String
  | .null => "null"
  | .num n => toString n
  | .boolean b => toString b
  | .str s => if GRAPHQL_ENUMS.contains s then s else jsonStringify s
  | .arr xs => "[" ++ joinSep ", " (toGraphQLLiteralList xs) ++ "]"
  | .obj kvs => "\x7b " ++ joinSep ", " (toGraphQLLiteralEntries kvs) ++ " \x7d"

/-- Serializes each array element in turn — the
`value.map(v => toGraphQLLiteral(v))` of the source's array case. -/
def toGraphQLLiteralList : List Json → List String
  | [] => []
  | v :: vs => toGraphQLLiteral v :: toGraphQLLiteralList vs

/-- Serializes each object entry to `key: value` text with a bare key —
the `Object.entries(value).map(...)` of the source's object case. -/
def toGraphQLLiteralEntries : List (String × Json) → List String
  | [] => []
  | (k, v) :: kvs => (k ++ ": " ++ toGraphQLLiteral v) :: toGraphQLLiteralEntries kvs

end

/-- One entry of `RESOLVER_REGISTRY`: per-resolver static metadata. -/
structure ResolverConfig where
  queryName : String
  fields : List String
  numericFields : List String
  scalarFieldsEnum : String
  numericAggregateEnum : String
  filterInputType : String
  orderByInputType : String
  description : String
deriving DecidableEq

/-- `RESOLVER_REGISTRY` from `utils/query-builder.js`, as an ordered
association list (JavaScript object literals preserve insertion order of
string keys). -/
def RESOLVER_REGISTRY : List (String × ResolverConfig) := [
  ("UNION_REF_HSCODE", {
    queryName := "uNION_REF_HSCODEs",
    fields := ["Report_ID", "Industry_ID", "Industry", "HS_Code_Group", "HS_Code", "HS_Code_ZH", "Unit_Name", "Unit"],
    numericFields := ["Industry_ID"],
    scalarFieldsEnum := "UNION_REF_HSCODEScalarFields",
    numericAggregateEnum := "UNION_REF_HSCODENumericAggregateFields",
    filterInputType := "UNION_REF_HSCODEFilterInput",
    orderByInputType := "UNION_REF_HSCODEOrderByInput",
    description := "HS Code reference table" }),
  ("trade_monthly_by_code_country", {
    queryName := "trade_monthly_by_code_countries",
    fields := ["PERIOD_MONTH", "YEAR", "MONTH", "TRADE_FLOW", "HS_CODE", "HS_CODE_ZH", "COUNTRY_ID", "COUNTRY_COMM_ZH", "TRADE_VALUE_USD_AMT", "TRADE_VALUE_TWD_AMT", "TRADE_WEIGHT", "TRADE_QUANT", "UNIT_PRICE_USD_PER_KG", "ETL_DT"],
    numericFields := ["YEAR", "MONTH", "TRADE_VALUE_USD_AMT", "TRADE_VALUE_TWD_AMT", "TRADE_WEIGHT", "TRADE_QUANT", "UNIT_PRICE_USD_PER_KG"],
    scalarFieldsEnum := "trade_monthly_by_code_countryScalarFields",
    numericAggregateEnum := "trade_monthly_by_code_countryNumericAggregateFields",
    filterInputType := "trade_monthly_by_code_countryFilterInput",
    orderByInputType := "trade_monthly_by_code_countryOrderByInput",
    description := "monthly trade statistics by HS code and country" }),
  ("trade_monthly_by_group_country", {
    queryName := "trade_monthly_by_group_countries",
    fields := ["PERIOD_MONTH", "YEAR", "MONTH", "TRADE_FLOW", "INDUSTRY_ID", "INDUSTRY", "HS_CODE_GROUP", "COUNTRY_ID", "COUNTRY_COMM_ZH", "AREA_ID", "AREA_NM", "TRADE_VALUE_USD_AMT", "TRADE_VALUE_TWD_AMT", "TRADE_WEIGHT", "TRADE_QUANT", "UNIT_PRICE_USD_PER_KG", "ETL_DT"],
    numericFields := ["YEAR", "MONTH", "INDUSTRY_ID", "TRADE_VALUE_USD_AMT", "TRADE_VALUE_TWD_AMT", "TRADE_WEIGHT", "TRADE_QUANT", "UNIT_PRICE_USD_PER_KG"],
    scalarFieldsEnum := "trade_monthly_by_group_countryScalarFields",
    numericAggregateEnum := "trade_monthly_by_group_countryNumericAggregateFields",
    filterInputType := "trade_monthly_by_group_countryFilterInput",
    orderByInputType := "trade_monthly_by_group_countryOrderByInput",
    description := "monthly trade statistics by industry group and country" }),
  ("UNION_REF_COUNTRY_AREA", {
    queryName := "uNION_REF_COUNTRY_AREAs",
    fields := ["ISO3", "COUNTRY_COMM_ZH", "COUNTRY_COMM_EN", "AREA_ID", "AREA_NM", "ROW", "AREA_sort"],
    numericFields := ["ROW", "AREA_sort"],
    scalarFieldsEnum := "UNION_REF_COUNTRY_AREAScalarFields",
    numericAggregateEnum := "UNION_REF_COUNTRY_AREANumericAggregateFields",
    filterInputType := "UNION_REF_COUNTRY_AREAFilterInput",
    orderByInputType := "UNION_REF_COUNTRY_AREAOrderByInput",
    description := "country and area reference table" }),
  ("TXN_MOF_NON_PROTECT_MT", {
    queryName := "tXN_MOF_NON_PROTECT_MTs",
    fields := ["TXN_DT", "HS_CODE", "HS_CODE_ZH", "HS_CODE_EN", "COUNTRY_ID", "COUNTRY_ZH", "COUNTRY_EN", "COUNTRY_COMM_ZH", "COUNTRY_COMM_EN", "TRADE_FLOW", "TRADE_VALUE_TWD_AMT", "TRADE_QUANT", "TRADE_WEIGHT_ORG", "TRADE_WEIGHT", "RATE_VALUE", "TRADE_VALUE_USD_AMT", "ETL_DT"],
    numericFields := ["TRADE_VALUE_TWD_AMT", "TRADE_QUANT", "TRADE_WEIGHT_ORG", "TRADE_WEIGHT", "RATE_VALUE", "TRADE_VALUE_USD_AMT"],
    scalarFieldsEnum := "TXN_MOF_NON_PROTECT_MTScalarFields",
    numericAggregateEnum := "TXN_MOF_NON_PROTECT_MTNumericAggregateFields",
    filterInputType := "TXN_MOF_NON_PROTECT_MTFilterInput",
    orderByInputType := "TXN_MOF_NON_PROTECT_MTOrderByInput",
    description := "full transaction detail table" })]

/-- Own-property lookup on the registry object: the keys visible to
`Object.keys(RESOLVER_REGISTRY)`. -/
def registryLookup (key : String) : Option ResolverConfig :=
  (RESOLVER_REGISTRY.find? (fun e => e.1 == key)).map (fun e => e.2)

/-- `Object.keys(RESOLVER_REGISTRY)` in declaration order. -/
def registryKeys : List String := RESOLVER_REGISTRY.map (fun e => e.1)

/-- The property names a plain object literal inherits from
`Object.prototype`: accessing any of them on `RESOLVER_REGISTRY` yields a
truthy value (a function, or the prototype object for `__proto__`)
although the key is not a registry entry. -/
def OBJECT_PROTOTYPE_KEYS : List String :=
  ["constructor", "hasOwnProperty", "isPrototypeOf", "propertyIsEnumerable",
   "toLocaleString", "toString", "valueOf",
   "__defineGetter__", "__defineSetter__", "__lookupGetter__", "__lookupSetter__",
   "__proto__"]

/-- Result of the JavaScript property access `RESOLVER_REGISTRY[key]`:
an own registry entry, a truthy non-descriptor inherited from
`Object.prototype`, or `undefined`. -/
inductive PropAccess where
  | own : ResolverConfig → PropAccess
  | inherited : PropAccess
  | absent : PropAccess

/-- `RESOLVER_REGISTRY[resolverKey]` including the prototype chain. -/
def registryAccess (key : String) : PropAccess :=
  match registryLookup key with
  | some c => .own c
  | none => if OBJECT_PROTOTYPE_KEYS.contains key then .inherited else .absent

/-- Marker for the failure on an inherited-property hit: the truthy
`config` bypasses the `if (!config) throw` guard and the builder later
dereferences `config.fields` (which is `undefined`), crashing with a
TypeError whose exact message is engine-specific. -/
def TYPE_ERROR_MSG : String := "TypeError"

/-- One element of the `aggregations` parameter: a `{field, function}`
pair, either property possibly absent (`none`). -/
structure AggRequest where
  field : Option String := none
  function : Option String := none
deriving DecidableEq

/-- The parameter bag accepted by `buildQuery`.  `none` models a property
that is `undefined` (and, for `filter`/`orderBy`/`fields`/`groupBy`/
`aggregations`, also `null` — both are falsy and the source treats them
identically); `first`/`after` keep the full value so that an explicit
`null` is distinguishable from an absent property. -/
structure QueryParams where
  first : Option Json := none
  after : Option Json := none
  filter : Option (List (String × Json)) := none
  orderBy : Option (List (String × Json)) := none
  fields : Option (List String) := none
  groupBy : Option (List String) := none
  aggregations : Option (List AggRequest) := none

/-- `const fn = agg.function || 'sum'` — an absent (or falsy, i.e. empty)
function string defaults to `sum`. -/
def aggFunction (a : AggRequest) : String :=
  match a.function with
  | some f => if f = "" then "sum" else f
  | none => "sum"

/-- The body of the `aggregations.map` callback in
`buildAggregationBlock`: a pair whose field is present (truthy) and a
member of `numericFields` becomes `fn(field: f)`, anything else becomes a
bare `count`. -/
def aggFragment (numericFields : List String) (a : AggRequest) : String :=
  match a.field with
  | some f =>
      if f ≠ "" ∧ numericFields.contains f then
        aggFunction a ++ "(field: " ++ f ++ ")"
      else "count"
  | none => "count"

/-- `[...new Set(l)]`: deduplication keeping the first occurrence of each
element, in order. -/
def dedupFirst (l : List String) : List String := go l []
where
  /-- Walk the list with the set of already-seen elements. -/
  go : List String → List String → List String
  | [], _ => []
  | x :: xs, seen => if x ∈ seen then go xs seen else x :: go xs (x :: seen)

/-- `buildAggregationBlock(aggregations, numericFields)` from
`utils/query-builder.js`: default bare-`count` block when no aggregations
are requested, otherwise the deduplicated fragments joined into an
`aggregations` block. -/
def buildAggregationBlock (aggregations : Option (List AggRequest)) (numericFields : List String) : String :=
  match aggregations with
  | none => "aggregations \x7b\n          count\n        \x7d"
  | some [] => "aggregations \x7b\n          count\n        \x7d"
  | some aggs =>
      let aggParts := aggs.map (aggFragment numericFields)
      let unique := dedupFirst aggParts
      "aggregations \x7b\n          " ++ joinSep "\n          " unique ++ "\n        \x7d"

/-- Whether a value is the JavaScript `null` (the `!== null` test). -/
def Json.isNull : Json → Bool
  | .null => true
  | _ => false

/-- The `queryArgs` array assembled by `buildQuery` (lines 279–295 of the
source): `first` and `after` are pushed when neither `undefined` nor
`null`, `filter` and `orderBy` when truthy with at least one key. -/
def queryArgsList (p : QueryParams) : List String :=
  (match p.first with
   | some v => if v.isNull then [] else ["first: " ++ toGraphQLLiteral v]
   | none => []) ++
  (match p.after with
   | some v => if v.isNull then [] else ["after: " ++ toGraphQLLiteral v]
   | none => []) ++
  (match p.filter with
   | some kvs => if kvs.isEmpty then [] else ["filter: " ++ toGraphQLLiteral (Json.obj kvs)]
   | none => []) ++
  (match p.orderBy with
   | some kvs => if kvs.isEmpty then [] else ["orderBy: " ++ toGraphQLLiteral (Json.obj kvs)]
   | none => [])

/-- The `selectedFields` computation of `buildQuery`: a non-empty
caller-supplied field list is filtered against the registry's fields,
otherwise the registry's full field list is used. -/
def selectedFields (config : ResolverConfig) (fields : Option (List String)) : List String :=
  match fields with
  | some fs => if fs.isEmpty then config.fields else fs.filter (fun f => config.fields.contains f)
  | none => config.fields

/-- The `groupByBlock` string of `buildQuery`: empty unless `groupBy` is a
non-empty list, in which case the group-by fields are filtered against
the registry's fields and combined with the aggregation block. -/
def groupByBlockStr (config : ResolverConfig) (groupBy : Option (List String))
    (aggregations : Option (List AggRequest)) : String :=
  match groupBy with
  | some gbs =>
      if gbs.isEmpty then "" else
        let groupByFields := gbs.filter (fun f => config.fields.contains f)
        let aggBlock := buildAggregationBlock aggregations config.numericFields
        "\n      groupBy(fields: [" ++ joinSep ", " groupByFields ++ "]) \x7b\n        fields \x7b\n          " ++
          joinSep "\n          " groupByFields ++ "\n        \x7d\n        " ++ aggBlock ++ "\n      \x7d"
  | none => ""

/-- The query text assembled by `buildQuery` for a resolved config:
the final template literal of the source. -/
def buildQueryText (config : ResolverConfig) (p : QueryParams) : String :=
  let queryArgs := queryArgsList p
  let itemsBlock := joinSep "\n          " (selectedFields config p.fields)
  let argsStr := if queryArgs.isEmpty then "" else "(" ++ joinSep ", " queryArgs ++ ")"
  "query \x7b\n    " ++ config.queryName ++ argsStr ++ " \x7b\n      items \x7b\n        " ++
    itemsBlock ++ "\n      \x7d\n      endCursor\n      hasNextPage" ++
    groupByBlockStr config p.groupBy p.aggregations ++ "\n    \x7d\n  \x7d"

/-- `buildQuery(resolverKey, params)`: on an own registry key it returns
the JavaScript object `{ query }` whose single property holds the query
text; on a key whose access is `undefined` it throws the UnknownResolver
error; on a key hitting an inherited `Object.prototype` property the
truthy `config` slips past the `if (!config) throw` guard and the call
instead crashes with a TypeError (modelled by `TYPE_ERROR_MSG`). -/
def buildQuery (resolverKey : String) (p : QueryParams) : Except String Json :=
  match registryAccess resolverKey with
  | .own config => .ok (Json.obj [("query", Json.str (buildQueryText config p))])
  | .inherited => .error TYPE_ERROR_MSG
  | .absent =>
      .error ("Unknown resolver: " ++ resolverKey ++ ". Available resolvers: " ++ joinSep ", " registryKeys)

/-! Helper lemmas. -/

theorem toGraphQLLiteralList_eq_map (xs : List Json) :
    toGraphQLLiteralList xs = xs.map toGraphQLLiteral := by
  induction xs with
  | nil => rfl
  | cons v vs ih => simp [toGraphQLLiteralList, ih]

theorem toGraphQLLiteralEntries_eq_map (kvs : List (String × Json)) :
    toGraphQLLiteralEntries kvs = kvs.map (fun kv => kv.1 ++ ": " ++ toGraphQLLiteral kv.2) := by
  induction kvs with
  | nil => rfl
  | cons kv kvs ih =>
      obtain ⟨k, v⟩ := kv
      simp [toGraphQLLiteralEntries, ih]

/-- Substring containment: `sub` occurs contiguously inside `t`. -/
def hasSub (t sub : String) : Prop := ∃ x y, t = x ++ (sub ++ y)

theorem hasSub_of_append (sub y : String) : hasSub (sub ++ y) sub :=
  ⟨"", y, rfl⟩

theorem hasSub_append_left (x : String) {t sub : String} (h : hasSub t sub) :
    hasSub (x ++ t) sub := by
  obtain ⟨a, y, rfl⟩ := h
  exact ⟨x ++ a, y, (String.append_assoc x a (sub ++ y)).symm⟩

theorem hasSub_append_right (y : String) {t sub : String} (h : hasSub t sub) :
    hasSub (t ++ y) sub := by
  obtain ⟨a, b, rfl⟩ := h
  exact ⟨a, b ++ y, by rw [String.append_assoc, String.append_assoc]⟩

theorem hasSub_self (t : String) : hasSub t t :=
  ⟨"", "", by rw [String.append_empty]; rfl⟩

theorem joinSep_hasSub {sep x : String} : ∀ {l : List String}, x ∈ l → hasSub (joinSep sep l) x := by
  intro l
  induction l with
  | nil => intro h; cases h
  | cons y ys ih =>
      intro hx
      match ys, hx with
      | [], hx =>
          have : x = y := by simpa using hx
          subst this
          exact hasSub_self x
      | z :: zs, hx =>
          rcases List.mem_cons.mp hx with h | h
          · subst h
            show hasSub (x ++ sep ++ joinSep sep (z :: zs)) x
            rw [String.append_assoc]
            exact hasSub_of_append x _
          · show hasSub (y ++ sep ++ joinSep sep (z :: zs)) x
            exact hasSub_append_left _ (ih h)

theorem mem_GRAPHQL_ENUMS (s : String) :
    GRAPHQL_ENUMS.contains s = true ↔ s = "ASC" ∨ s = "DESC" := by
  rw [List.elem_iff]
  simp [GRAPHQL_ENUMS]

theorem escChar_length_pos (c : Char) : 1 ≤ (escChar c).length := by
  unfold escChar
  repeat' split
  all_goals simp

theorem flatMap_escChar_length (l : List Char) : l.length ≤ (l.flatMap escChar).length := by
  induction l with
  | nil => simp
  | cons c cs ih =>
      have := escChar_length_pos c
      simp only [List.flatMap_cons, List.length_append, List.length_cons]
      omega

theorem jsonStringify_length (s : String) : s.length + 2 ≤ (jsonStringify s).length := by
  show s.data.length + 2 ≤ ('"' :: (s.data.flatMap escChar ++ ['"'])).length
  have := flatMap_escChar_length s.data
  simp only [List.length_cons, List.length_append, List.length_singleton]
  omega

theorem jsonStringify_ne_self (s : String) : jsonStringify s ≠ s := by
  intro h
  have hl : (jsonStringify s).length = s.length := by rw [h]
  have := jsonStringify_length s
  omega

theorem jsonStringify_head (s : String) : (jsonStringify s).data.head? = some '"' := rfl

theorem jsonStringify_last (s : String) : (jsonStringify s).data.getLast? = some '"' := by
  have h : (jsonStringify s).data = ('"' :: s.data.flatMap escChar) ++ ['"'] := by
    simp [jsonStringify]
  rw [h, List.getLast?_concat]

theorem toDigitsCore_length_le (b : Nat) :
    ∀ (f n : Nat) (ds : List Char), ds.length ≤ (Nat.toDigitsCore b f n ds).length := by
  intro f
  induction f with
  | zero => intro n ds; simp [Nat.toDigitsCore]
  | succ f ih =>
      intro n ds
      rw [Nat.toDigitsCore]
      by_cases h : n / b = 0
      · simp [h]
      · simp only [h, if_false]
        have h1 := ih (n / b) (Nat.digitChar (n % b) :: ds)
        simp only [List.length_cons] at h1
        omega

theorem nat_repr_length_pos (n : Nat) : 0 < (Nat.repr n).length := by
  show 0 < (Nat.toDigits 10 n).asString.length
  have : (Nat.toDigits 10 n).asString.length = (Nat.toDigits 10 n).length := rfl
  rw [this]
  unfold Nat.toDigits
  rw [Nat.toDigitsCore]
  by_cases h : n / 10 = 0
  · simp [h]
  · simp only [h, if_false]
    have h1 := toDigitsCore_length_le 10 n (n / 10) [Nat.digitChar (n % 10)]
    simp only [List.length_singleton] at h1
    omega

theorem int_toString_length_pos (n : Int) : 0 < (toString n).length := by
  cases n with
  | ofNat m => exact nat_repr_length_pos m
  | negSucc m =>
      show 0 < (("-" : String) ++ toString (m + 1)).length
      rw [String.length_append]
      have h1 : ("-" : String).length = 1 := rfl
      have h2 : 0 < (toString (m + 1)).length := nat_repr_length_pos (m + 1)
      omega

theorem Json.isNull_eq_false_iff (v : Json) : v.isNull = false ↔ v ≠ Json.null := by
  cases v <;> simp [Json.isNull]

/-! Lemmas about `dedupFirst`. -/

theorem dedupFirst_go_mem :
    ∀ (l seen : List String) (x : String),
      x ∈ dedupFirst.go l seen ↔ x ∈ l ∧ x ∉ seen := by
  intro l
  induction l with
  | nil => intro seen x; simp [dedupFirst.go]
  | cons y ys ih =>
      intro seen x
      rw [dedupFirst.go]
      by_cases hy : y ∈ seen
      · simp only [hy, if_true]
        rw [ih]
        constructor
        · rintro ⟨hx, hns⟩
          exact ⟨List.mem_cons_of_mem _ hx, hns⟩
        · rintro ⟨hx, hns⟩
          rcases List.mem_cons.mp hx with h | h
          · subst h; exact absurd hy hns
          · exact ⟨h, hns⟩
      · simp only [hy, if_false]
        constructor
        · intro hx
          rcases List.mem_cons.mp hx with h | h
          · subst h; exact ⟨List.mem_cons_self _ _, hy⟩
          · obtain ⟨h1, h2⟩ := (ih (y :: seen) x).mp h
            refine ⟨List.mem_cons_of_mem _ h1, fun hc => h2 (List.mem_cons_of_mem _ hc)⟩
        · rintro ⟨hx, hns⟩
          rcases List.mem_cons.mp hx with h | h
          · subst h; exact List.mem_cons_self _ _
          · by_cases hxy : x = y
            · subst hxy; exact List.mem_cons_self _ _
            · refine List.mem_cons_of_mem _ ((ih (y :: seen) x).mpr ⟨h, ?_⟩)
              intro hc
              rcases List.mem_cons.mp hc with hc | hc
              · exact hxy hc
              · exact hns hc

theorem dedupFirst_go_nodup :
    ∀ (l seen : List String), (dedupFirst.go l seen).Nodup := by
  intro l
  induction l with
  | nil => intro seen; simp [dedupFirst.go]
  | cons y ys ih =>
      intro seen
      rw [dedupFirst.go]
      by_cases hy : y ∈ seen
      · simp only [hy, if_true]; exact ih seen
      · simp only [hy, if_false]
        refine List.nodup_cons.mpr ⟨?_, ih (y :: seen)⟩
        intro hc
        have := (dedupFirst_go_mem ys (y :: seen) y).mp hc
        exact this.2 (List.mem_cons_self _ _)

theorem dedupFirst_mem (l : List String) (x : String) : x ∈ dedupFirst l ↔ x ∈ l := by
  rw [dedupFirst, dedupFirst_go_mem]
  simp

theorem dedupFirst_nodup (l : List String) : (dedupFirst l).Nodup :=
  dedupFirst_go_nodup l []

theorem contains_iff_mem (l : List String) (x : String) : l.contains x = true ↔ x ∈ l :=
  List.elem_iff

theorem takeWhile_append_stop (p : Char → Bool) :
    ∀ (n : List Char) (c : Char) (t : List Char), (∀ a ∈ n, p a) → p c = false →
      (n ++ c :: t).takeWhile p = n := by
  intro n
  induction n with
  | nil => intro c t _ hc; simp [List.takeWhile_cons, hc]
  | cons a n ih =>
      intro c t hn hc
      have ha : p a = true := hn a (List.mem_cons_self _ _)
      simp only [List.cons_append, List.takeWhile_cons, ha, if_true]
      rw [ih c t (fun b hb => hn b (List.mem_cons_of_mem _ hb)) hc]

/-- Two argument strings of the form `name: value` with colon-free names
can only be equal if the names agree. -/
theorem argName_unique {n₁ n₂ a b : String}
    (h₁ : ∀ c ∈ n₁.data, c ≠ ':') (h₂ : ∀ c ∈ n₂.data, c ≠ ':')
    (h : n₁ ++ ": " ++ a = n₂ ++ ": " ++ b) : n₁ = n₂ := by
  have hd : n₁.data ++ ':' :: (' ' :: a.data) = n₂.data ++ ':' :: (' ' :: b.data) := by
    have := congrArg String.data h
    simpa [String.data_append] using this
  have e₁ : (n₁.data ++ ':' :: (' ' :: a.data)).takeWhile (fun c => c != ':') = n₁.data := by
    apply takeWhile_append_stop
    · intro x hx; simpa using h₁ x hx
    · simp
  have e₂ : (n₂.data ++ ':' :: (' ' :: b.data)).takeWhile (fun c => c != ':') = n₂.data := by
    apply takeWhile_append_stop
    · intro x hx; simpa using h₂ x hx
    · simp
  have : n₁.data = n₂.data := by rw [← e₁, ← e₂, hd]
  exact String.ext this

theorem registryAccess_own {k : String} {c : ResolverConfig}
    (h : registryLookup k = some c) : registryAccess k = .own c := by
  rw [registryAccess, h]

theorem registryAccess_absent {k : String} (h : registryLookup k = none)
    (hp : k ∉ OBJECT_PROTOTYPE_KEYS) : registryAccess k = .absent := by
  have hc : OBJECT_PROTOTYPE_KEYS.contains k = false := by
    rw [Bool.eq_false_iff]
    intro hmem
    exact hp ((contains_iff_mem _ _).mp hmem)
  rw [registryAccess, h, hc]
  simp

theorem hasSub_length {t sub : String} (h : hasSub t sub) : sub.length ≤ t.length := by
  obtain ⟨x, y, rfl⟩ := h
  rw [String.length_append, String.length_append]
  omega

/-! The claims. -/

/-- Claim C1: for every string value v the literal serializer emits v
unquoted if and only if v exactly equals one of the bare enum tokens ASC
or DESC; every other string (such as ASC_COMPANY) is emitted as a
double-quoted JSON-escaped string literal, and object keys are always
emitted as bare unquoted identifiers. -/
theorem C1_enum_bareness (s : String) (kvs : List (String × Json)) :
    (toGraphQLLiteral (Json.str s) = s ↔ s = "ASC" ∨ s = "DESC")
    ∧ (s ≠ "ASC" → s ≠ "DESC" →
        toGraphQLLiteral (Json.str s) = jsonStringify s
        ∧ (jsonStringify s).data.head? = some '"'
        ∧ (jsonStringify s).data.getLast? = some '"')
    ∧ toGraphQLLiteral (Json.obj kvs) =
        "\x7b " ++ joinSep ", " (kvs.map (fun kv => kv.1 ++ ": " ++ toGraphQLLiteral kv.2)) ++ " \x7d"
    ∧ toGraphQLLiteral (Json.obj [("ROW", Json.str "ASC")]) = "\x7b ROW: ASC \x7d"
    ∧ toGraphQLLiteral (Json.obj [("NAME", Json.str "ASC_COMPANY")]) =
        "\x7b NAME: " ++ jsonStringify "ASC_COMPANY" ++ " \x7d" := by
  have hnotenum : ∀ t : String, t ≠ "ASC" → t ≠ "DESC" →
      toGraphQLLiteral (Json.str t) = jsonStringify t := by
    intro t h1 h2
    have hc : GRAPHQL_ENUMS.contains t = false := by
      rw [Bool.eq_false_iff]
      intro hmem
      rcases (mem_GRAPHQL_ENUMS t).mp hmem with h | h
      · exact h1 h
      · exact h2 h
    rw [toGraphQLLiteral, hc]
    simp
  refine ⟨?_, ?_, ?_, rfl, rfl⟩
  · constructor
    · intro h
      by_cases h1 : s = "ASC"
      · exact Or.inl h1
      by_cases h2 : s = "DESC"
      · exact Or.inr h2
      rw [hnotenum s h1 h2] at h
      exact absurd h (jsonStringify_ne_self s)
    · rintro (rfl | rfl) <;> rfl
  · intro h1 h2
    exact ⟨hnotenum s h1 h2, jsonStringify_head s, jsonStringify_last s⟩
  · rw [toGraphQLLiteral, toGraphQLLiteralEntries_eq_map]

/-- Witness for C1 at the concrete non-enum string ASC_COMPANY. -/
theorem C1_enum_bareness_witness :
    toGraphQLLiteral (Json.str "ASC_COMPANY") = jsonStringify "ASC_COMPANY" :=
  ((C1_enum_bareness "ASC_COMPANY" []).2.1 (by decide) (by decide)).1

/-- Claim C8: in every entry of the resolver registry, every member of
numericFields is also a member of fields. -/
theorem C8_numericFields_subset :
    ∀ e ∈ RESOLVER_REGISTRY, ∀ f ∈ e.2.numericFields, f ∈ e.2.fields := by decide

/-- Witness for C8 at the first registry entry and its numeric field. -/
theorem C8_numericFields_subset_witness :
    "Industry_ID" ∈ (RESOLVER_REGISTRY.head (by decide)).2.fields :=
  C8_numericFields_subset _ (List.head_mem _) _ (by decide)

/-- Claim C9: the literal serializer is a total function on JSON-like
values: every finite value built from null, booleans, numbers, strings,
arrays and objects serializes to a string (indeed a non-empty one); the
recursion over nested arrays and objects is well-founded. -/
theorem C9_serializer_total (v : Json) : 0 < (toGraphQLLiteral v).length := by
  cases v with
  | null => decide
  | num n => exact int_toString_length_pos n
  | boolean b => cases b <;> decide
  | str s =>
      rw [toGraphQLLiteral]
      by_cases h : GRAPHQL_ENUMS.contains s = true
      · rcases (mem_GRAPHQL_ENUMS s).mp h with rfl | rfl <;> decide
      · rw [Bool.not_eq_true] at h
        rw [h]
        simp only [Bool.false_eq_true, if_false]
        have := jsonStringify_length s
        omega
  | arr xs =>
      rw [toGraphQLLiteral, String.length_append, String.length_append]
      have h : ("[" : String).length = 1 := rfl
      omega
  | obj kvs =>
      rw [toGraphQLLiteral, String.length_append, String.length_append]
      have h : ("\x7b " : String).length = 2 := rfl
      omega

/-- Counterexample to claim C2: with numeric-field set [""] and a single
pair whose field is the empty string, the pair's field IS a member of the
numeric-field set, yet the builder's truthiness test on the field
downgrades the pair to a bare count instead of emitting the
sum(field: ...) fragment the claim requires for member fields. -/
theorem C2_counterexample :
    ("" ∈ [""])
    ∧ ({ field := some "", function := some "sum" } : AggRequest).field = some ""
    ∧ aggFragment [""] { field := some "", function := some "sum" } = "count"
    ∧ buildAggregationBlock (some [{ field := some "", function := some "sum" }]) [""] =
        "aggregations \x7b\n          count\n        \x7d" :=
  ⟨by decide, rfl, by decide, by decide⟩

/-- Claim C2 (amended): with no requested aggregations the block is a
bare count; otherwise each pair whose field is present, non-empty (the
source tests the field for JS truthiness) and a member of the
numeric-field set contributes fn(field: f) (function defaulting to sum
when omitted), every other pair — field absent, empty, or not
numeric-eligible — is downgraded to a bare count, and the fragments are
deduplicated by exact string equality before joining. -/
theorem C2_aggregation_block (aggs : List AggRequest) (nf : List String)
    (hne : aggs ≠ []) :
    buildAggregationBlock none nf = "aggregations \x7b\n          count\n        \x7d"
    ∧ buildAggregationBlock (some []) nf = "aggregations \x7b\n          count\n        \x7d"
    ∧ buildAggregationBlock (some aggs) nf =
        "aggregations \x7b\n          " ++
          joinSep "\n          " (dedupFirst (aggs.map (aggFragment nf))) ++ "\n        \x7d"
    ∧ (∀ a : AggRequest, ∀ f, a.field = some f → f ≠ "" → f ∈ nf →
        aggFragment nf a = aggFunction a ++ "(field: " ++ f ++ ")")
    ∧ (∀ a : AggRequest, a.function = none → aggFunction a = "sum")
    ∧ (∀ a : AggRequest,
        (a.field = none ∨ a.field = some "" ∨ ∀ f, a.field = some f → f ∉ nf) →
        aggFragment nf a = "count")
    ∧ (dedupFirst (aggs.map (aggFragment nf))).Nodup
    ∧ (∀ x, x ∈ dedupFirst (aggs.map (aggFragment nf)) ↔ x ∈ aggs.map (aggFragment nf)) := by
  obtain ⟨a0, as, rfl⟩ := List.exists_cons_of_ne_nil hne
  refine ⟨rfl, rfl, rfl, ?_, ?_, ?_, dedupFirst_nodup _, fun x => dedupFirst_mem _ x⟩
  · intro a f hf hfe hmem
    have hred : aggFragment nf a =
        if f ≠ "" ∧ nf.contains f = true then aggFunction a ++ "(field: " ++ f ++ ")"
        else "count" := by
      rw [aggFragment, hf]
    rw [hred, if_pos ⟨hfe, (contains_iff_mem nf f).mpr hmem⟩]
  · intro a hfn
    rw [aggFunction, hfn]
  · rintro a (hnone | hempty | hall)
    · rw [aggFragment, hnone]
    · have hred : aggFragment nf a =
          if ("" : String) ≠ "" ∧ nf.contains "" = true then
            aggFunction a ++ "(field: " ++ "" ++ ")"
          else "count" := by
        rw [aggFragment, hempty]
      rw [hred, if_neg]
      rintro ⟨hc, -⟩
      exact hc rfl
    · cases hf : a.field with
      | none => rw [aggFragment, hf]
      | some f =>
          have hred : aggFragment nf a =
              if f ≠ "" ∧ nf.contains f = true then aggFunction a ++ "(field: " ++ f ++ ")"
              else "count" := by
            rw [aggFragment, hf]
          rw [hred, if_neg]
          rintro ⟨-, hc⟩
          exact hall f hf ((contains_iff_mem nf f).mp hc)

/-- Witness for C2: the duplicated sum(field: X) request collapses to a
single output line. -/
theorem C2_aggregation_block_witness :
    buildAggregationBlock
        (some [{ field := some "X", function := some "sum" },
               { field := some "X", function := some "sum" }]) ["X"] =
      "aggregations \x7b\n          sum(field: X)\n        \x7d" :=
  ((C2_aggregation_block
      [{ field := some "X", function := some "sum" },
       { field := some "X", function := some "sum" }] ["X"]
      (by decide)).2.2.1).trans (by decide)

/-- Whether a build result is a success. -/
def returnsOk : Except String Json → Bool
  | .ok _ => true
  | .error _ => false

/-- Whether a build result is a success carrying a bare string value. -/
def returnsString : Except String Json → Bool
  | .ok (.str _) => true
  | _ => false

/-- Counterexample to claim C7: buildQuery on a valid key succeeds but the
returned value is not a string — it is the object with a query property. -/
theorem C7_counterexample :
    returnsOk (buildQuery "UNION_REF_HSCODE" {}) = true
    ∧ returnsString (buildQuery "UNION_REF_HSCODE" {}) = false := ⟨rfl, rfl⟩

/-- Claim C7 (amended): for every valid resolver key buildQuery returns an
object with a single property named query whose value is the query text,
a string — not the query text directly. -/
theorem C7_returns_query_object (k : String) (p : QueryParams) (c : ResolverConfig)
    (h : registryLookup k = some c) :
    buildQuery k p = .ok (Json.obj [("query", Json.str (buildQueryText c p))]) := by
  rw [buildQuery, registryAccess_own h]

/-- Witness for C7 at the first registry key. -/
theorem C7_returns_query_object_witness :
    buildQuery "UNION_REF_HSCODE" {} =
      .ok (Json.obj [("query",
        Json.str (buildQueryText (RESOLVER_REGISTRY.head (by decide)).2 {}))]) :=
  C7_returns_query_object "UNION_REF_HSCODE" {} _ (by decide)

/-- Claim C4: for every resolver key present in the registry, buildQuery
with an empty parameter bag succeeds, and the produced query text
contains the entry's queryName and all of its default field names in the
registry's declared order (they appear joined in declaration order). -/
theorem C4_registry_defaults (k : String) (c : ResolverConfig)
    (h : registryLookup k = some c) :
    buildQuery k {} = .ok (Json.obj [("query", Json.str (buildQueryText c {}))])
    ∧ buildQueryText c {} =
        "query \x7b\n    " ++ c.queryName ++ " \x7b\n      items \x7b\n        " ++
          joinSep "\n          " c.fields ++
          "\n      \x7d\n      endCursor\n      hasNextPage" ++ "\n    \x7d\n  \x7d"
    ∧ hasSub (buildQueryText c {}) c.queryName
    ∧ hasSub (buildQueryText c {}) (joinSep "\n          " c.fields)
    ∧ (∀ f ∈ c.fields, hasSub (buildQueryText c {}) f) := by
  have htext : buildQueryText c {} =
      "query \x7b\n    " ++ c.queryName ++ " \x7b\n      items \x7b\n        " ++
        joinSep "\n          " c.fields ++
        "\n      \x7d\n      endCursor\n      hasNextPage" ++ "\n    \x7d\n  \x7d" := by
    rw [buildQueryText]
    simp only [show (queryArgsList {}).isEmpty = true from rfl, if_true,
      show selectedFields c none = c.fields from rfl,
      show groupByBlockStr c none none = "" from rfl,
      String.append_empty]
  refine ⟨by rw [buildQuery, registryAccess_own h], htext, ?_, ?_, ?_⟩
  · rw [htext]
    exact hasSub_append_right _ (hasSub_append_right _ (hasSub_append_right _
      (hasSub_append_right _ (hasSub_append_left _ (hasSub_self c.queryName)))))
  · rw [htext]
    exact hasSub_append_right _ (hasSub_append_right _
      (hasSub_append_left _ (hasSub_self (joinSep "\n          " c.fields))))
  · intro f hf
    rw [htext]
    exact hasSub_append_right _ (hasSub_append_right _
      (hasSub_append_left _ (joinSep_hasSub hf)))

/-- Witness for C4 at the first registry key and its first default field. -/
theorem C4_registry_defaults_witness :
    hasSub (buildQueryText (RESOLVER_REGISTRY.head (by decide)).2 {}) "Report_ID" :=
  (C4_registry_defaults "UNION_REF_HSCODE" _ (by decide)).2.2.2.2 "Report_ID" (by decide)

/-- Counterexample to claim C5: the key toString is not present in the
registry, yet buildQuery does not raise the UnknownResolver error for it:
the property access hits the inherited truthy Object.prototype.toString,
the guard is bypassed and the call fails with a TypeError — a message
that is not the UnknownResolver message and does not even contain the
first registry key. -/
theorem C5_counterexample :
    registryLookup "toString" = none
    ∧ buildQuery "toString" {} = .error TYPE_ERROR_MSG
    ∧ TYPE_ERROR_MSG ≠
        "Unknown resolver: " ++ "toString" ++ ". Available resolvers: " ++ joinSep ", " registryKeys
    ∧ ¬ hasSub TYPE_ERROR_MSG "UNION_REF_HSCODE" :=
  ⟨by decide, rfl, by decide,
    fun h => by
      have hlen := hasSub_length h
      revert hlen
      decide⟩

/-- Claim C5 (amended): for every resolver key that is neither present in
the registry nor the name of an inherited Object.prototype property,
buildQuery raises an UnknownResolver error whose message names the
offending key and lists all known registry keys, and no query object is
produced; a key hitting an inherited Object.prototype property instead
slips past the guard and fails with a TypeError. -/
theorem C5_unknown_resolver (k : String) (p : QueryParams)
    (h : registryLookup k = none) (hp : k ∉ OBJECT_PROTOTYPE_KEYS) :
    buildQuery k p =
      .error ("Unknown resolver: " ++ k ++ ". Available resolvers: " ++ joinSep ", " registryKeys)
    ∧ hasSub ("Unknown resolver: " ++ k ++ ". Available resolvers: " ++ joinSep ", " registryKeys) k
    ∧ (∀ kk ∈ registryKeys,
        hasSub ("Unknown resolver: " ++ k ++ ". Available resolvers: " ++ joinSep ", " registryKeys) kk)
    ∧ (∀ r, buildQuery k p ≠ .ok r)
    ∧ (∀ k2 p2, registryLookup k2 = none → k2 ∈ OBJECT_PROTOTYPE_KEYS →
        buildQuery k2 p2 = .error TYPE_ERROR_MSG) := by
  refine ⟨by rw [buildQuery, registryAccess_absent h hp], ?_, ?_, ?_, ?_⟩
  · exact hasSub_append_right _ (hasSub_append_right _
      (hasSub_append_left _ (hasSub_self k)))
  · intro kk hkk
    exact hasSub_append_left _ (joinSep_hasSub hkk)
  · intro r hc
    rw [buildQuery, registryAccess_absent h hp] at hc
    exact Except.noConfusion hc
  · intro k2 p2 h2 hp2
    have ha : registryAccess k2 = .inherited := by
      rw [registryAccess, h2, (contains_iff_mem OBJECT_PROTOTYPE_KEYS k2).mpr hp2]
      rfl
    rw [buildQuery, ha]

/-- Witness for C5 at the unknown key nope. -/
theorem C5_unknown_resolver_witness :
    buildQuery "nope" {} =
      .error "Unknown resolver: nope. Available resolvers: UNION_REF_HSCODE, trade_monthly_by_code_country, trade_monthly_by_group_country, UNION_REF_COUNTRY_AREA, TXN_MOF_NON_PROTECT_MT" := by
  have h := (C5_unknown_resolver "nope" {} (by decide) (by decide)).1
  rw [h]
  rfl

/-- Claim C6: a non-empty params.fields yields the intersection with the
descriptor's fields in the caller's order (unknown names silently
dropped); an empty or absent params.fields falls back to the full
registry field list; the same silent-drop filtering applies to
params.groupBy; and the country/area resolver with fields
[UNKNOWN_FIELD, ISO3] selects exactly [ISO3]. -/
theorem C6_field_filtering (c : ResolverConfig) (fs : List String) (hne : fs ≠ []) :
    selectedFields c (some fs) = fs.filter (fun f => c.fields.contains f)
    ∧ (∀ f, f ∈ selectedFields c (some fs) ↔ f ∈ fs ∧ f ∈ c.fields)
    ∧ (selectedFields c (some fs)).Sublist fs
    ∧ selectedFields c none = c.fields
    ∧ selectedFields c (some []) = c.fields
    ∧ (∀ (gbs : List String) (aggs : Option (List AggRequest)), gbs ≠ [] →
        groupByBlockStr c (some gbs) aggs =
          "\n      groupBy(fields: [" ++ joinSep ", " (gbs.filter (fun f => c.fields.contains f)) ++
            "]) \x7b\n        fields \x7b\n          " ++
            joinSep "\n          " (gbs.filter (fun f => c.fields.contains f)) ++
            "\n        \x7d\n        " ++ buildAggregationBlock aggs c.numericFields ++ "\n      \x7d")
    ∧ (∀ cA, registryLookup "UNION_REF_COUNTRY_AREA" = some cA →
        selectedFields cA (some ["UNKNOWN_FIELD", "ISO3"]) = ["ISO3"]) := by
  obtain ⟨a, as, rfl⟩ := List.exists_cons_of_ne_nil hne
  have hsel : selectedFields c (some (a :: as)) =
      (a :: as).filter (fun f => c.fields.contains f) := rfl
  refine ⟨hsel, ?_, ?_, rfl, rfl, ?_, ?_⟩
  · intro f
    rw [hsel, List.mem_filter, contains_iff_mem]
  · rw [hsel]
    exact List.filter_sublist _
  · intro gbs aggs hgbs
    obtain ⟨g, gs, rfl⟩ := List.exists_cons_of_ne_nil hgbs
    rfl
  · intro cA h
    have h0 : registryLookup "UNION_REF_COUNTRY_AREA" =
        some (RESOLVER_REGISTRY.get ⟨3, by decide⟩).2 := by decide
    rw [h0] at h
    injection h with h
    rw [← h]
    decide

/-- Witness for C6 on the country/area resolver. -/
theorem C6_field_filtering_witness :
    selectedFields (RESOLVER_REGISTRY.get ⟨3, by decide⟩).2
      (some ["UNKNOWN_FIELD", "ISO3"]) = ["ISO3"] :=
  (C6_field_filtering (RESOLVER_REGISTRY.get ⟨3, by decide⟩).2
      ["UNKNOWN_FIELD", "ISO3"] (by decide)).2.2.2.2.2.2 _ (by decide)

/-- Claim C10: for a valid resolver key, a non-empty params.fields none of
whose names is known still succeeds and emits an items block with an
empty selection set — there is no fallback to the default field list. -/
theorem C10_all_unknown_fields (k : String) (c : ResolverConfig) (fs : List String)
    (h : registryLookup k = some c) (hne : fs ≠ []) (hunk : ∀ f ∈ fs, f ∉ c.fields) :
    selectedFields c (some fs) = []
    ∧ buildQuery k { fields := some fs } =
        .ok (Json.obj [("query", Json.str (buildQueryText c { fields := some fs }))])
    ∧ buildQueryText c { fields := some fs } =
        "query \x7b\n    " ++ c.queryName ++ " \x7b\n      items \x7b\n        " ++
          "\n      \x7d\n      endCursor\n      hasNextPage" ++ "\n    \x7d\n  \x7d" := by
  obtain ⟨a, as, rfl⟩ := List.exists_cons_of_ne_nil hne
  have hsel : selectedFields c (some (a :: as)) = [] := by
    rw [show selectedFields c (some (a :: as)) =
      (a :: as).filter (fun f => c.fields.contains f) from rfl]
    rw [List.filter_eq_nil_iff]
    intro f hf
    simpa [contains_iff_mem] using hunk f hf
  refine ⟨hsel, by rw [buildQuery, registryAccess_own h], ?_⟩
  rw [buildQueryText]
  simp only [show (queryArgsList { fields := some (a :: as) }).isEmpty = true from rfl, if_true,
    show ({ fields := some (a :: as) } : QueryParams).fields = some (a :: as) from rfl,
    hsel,
    show groupByBlockStr c none none = "" from rfl,
    show joinSep "\n          " ([] : List String) = "" from rfl,
    String.append_empty]

/-- Witness for C10 on the country/area resolver with one unknown field. -/
theorem C10_all_unknown_fields_witness :
    selectedFields (RESOLVER_REGISTRY.get ⟨3, by decide⟩).2 (some ["UNKNOWN_FIELD"]) = [] :=
  (C10_all_unknown_fields "UNION_REF_COUNTRY_AREA" _ ["UNKNOWN_FIELD"]
    (by decide) (by decide) (by decide)).1

theorem isEmpty_false_of_ne_nil {α : Type} {l : List α} (h : l ≠ []) : l.isEmpty = false := by
  cases l with
  | nil => exact absurd rfl h
  | cons a as => rfl

theorem first_arg_mem (p : QueryParams) (v : Json) (hf : p.first = some v)
    (hv : v ≠ Json.null) : ("first: " ++ toGraphQLLiteral v) ∈ queryArgsList p := by
  have hv' : v.isNull = false := (Json.isNull_eq_false_iff v).mpr hv
  rw [queryArgsList]
  simp [hf, hv']

theorem after_arg_mem (p : QueryParams) (v : Json) (hf : p.after = some v)
    (hv : v ≠ Json.null) : ("after: " ++ toGraphQLLiteral v) ∈ queryArgsList p := by
  have hv' : v.isNull = false := (Json.isNull_eq_false_iff v).mpr hv
  rw [queryArgsList]
  simp [hf, hv']

theorem filter_arg_mem (p : QueryParams) (kvs : List (String × Json))
    (hf : p.filter = some kvs) (hk : kvs ≠ []) :
    ("filter: " ++ toGraphQLLiteral (Json.obj kvs)) ∈ queryArgsList p := by
  rw [queryArgsList]
  simp [hf, isEmpty_false_of_ne_nil hk]

theorem orderBy_arg_mem (p : QueryParams) (kvs : List (String × Json))
    (hf : p.orderBy = some kvs) (hk : kvs ≠ []) :
    ("orderBy: " ++ toGraphQLLiteral (Json.obj kvs)) ∈ queryArgsList p := by
  rw [queryArgsList]
  simp [hf, isEmpty_false_of_ne_nil hk]

/-- Every member of the argument list arises from exactly one of the four
parameter slots, with the corresponding guard satisfied. -/
theorem queryArgsList_mem_cases (p : QueryParams) (s : String) (h : s ∈ queryArgsList p) :
    (∃ v, p.first = some v ∧ v ≠ Json.null ∧ s = "first: " ++ toGraphQLLiteral v)
    ∨ (∃ v, p.after = some v ∧ v ≠ Json.null ∧ s = "after: " ++ toGraphQLLiteral v)
    ∨ (∃ kvs, p.filter = some kvs ∧ kvs ≠ [] ∧ s = "filter: " ++ toGraphQLLiteral (Json.obj kvs))
    ∨ (∃ kvs, p.orderBy = some kvs ∧ kvs ≠ [] ∧
        s = "orderBy: " ++ toGraphQLLiteral (Json.obj kvs)) := by
  rw [queryArgsList] at h
  rcases List.mem_append.mp h with h | h
  · rcases List.mem_append.mp h with h | h
    · rcases List.mem_append.mp h with h | h
      · left
        cases hf : p.first with
        | none => simp [hf] at h
        | some v =>
            cases hv : v.isNull with
            | true => simp [hf, hv] at h
            | false =>
                simp only [hf, hv, Bool.false_eq_true, if_false, List.mem_singleton] at h
                exact ⟨v, rfl, (Json.isNull_eq_false_iff v).mp hv, h⟩
      · right; left
        cases hf : p.after with
        | none => simp [hf] at h
        | some v =>
            cases hv : v.isNull with
            | true => simp [hf, hv] at h
            | false =>
                simp only [hf, hv, Bool.false_eq_true, if_false, List.mem_singleton] at h
                exact ⟨v, rfl, (Json.isNull_eq_false_iff v).mp hv, h⟩
    · right; right; left
      cases hf : p.filter with
      | none => simp [hf] at h
      | some kvs =>
          cases hk : kvs.isEmpty with
          | true => simp [hf, hk] at h
          | false =>
              simp only [hf, hk, Bool.false_eq_true, if_false, List.mem_singleton] at h
              refine ⟨kvs, rfl, ?_, h⟩
              intro hc
              subst hc
              exact Bool.noConfusion hk
  · right; right; right
    cases hf : p.orderBy with
    | none => simp [hf] at h
    | some kvs =>
        cases hk : kvs.isEmpty with
        | true => simp [hf, hk] at h
        | false =>
            simp only [hf, hk, Bool.false_eq_true, if_false, List.mem_singleton] at h
            refine ⟨kvs, rfl, ?_, h⟩
            intro hc
            subst hc
            exact Bool.noConfusion hk

/-- Counterexample to claim C3: an explicitly null params.first is a
defined value, yet the builder emits no first: argument at all (explicit
null is dropped entirely, not rendered as null). -/
theorem C3_counterexample :
    (({ first := some Json.null } : QueryParams)).first.isSome = true
    ∧ queryArgsList { first := some Json.null } = [] := ⟨rfl, rfl⟩

/-- Claim C3 (amended): the argument list carries first: exactly when
params.first is defined AND non-null, after: likewise, filter: exactly
when params.filter is a non-empty object and orderBy: exactly when
params.orderBy is non-empty; a parameter that is undefined or explicitly
null is entirely absent and in particular is never rendered as null. -/
theorem C3_argument_inclusion (p : QueryParams) :
    ((∃ s ∈ queryArgsList p, ∃ t, s = "first" ++ ": " ++ t) ↔
      (∃ v, p.first = some v ∧ v ≠ Json.null))
    ∧ (∀ v, p.first = some v → v ≠ Json.null →
        ("first: " ++ toGraphQLLiteral v) ∈ queryArgsList p)
    ∧ ((∃ s ∈ queryArgsList p, ∃ t, s = "after" ++ ": " ++ t) ↔
      (∃ v, p.after = some v ∧ v ≠ Json.null))
    ∧ (∀ v, p.after = some v → v ≠ Json.null →
        ("after: " ++ toGraphQLLiteral v) ∈ queryArgsList p)
    ∧ ((∃ s ∈ queryArgsList p, ∃ t, s = "filter" ++ ": " ++ t) ↔
      (∃ kvs, p.filter = some kvs ∧ kvs ≠ []))
    ∧ ((∃ s ∈ queryArgsList p, ∃ t, s = "orderBy" ++ ": " ++ t) ↔
      (∃ kvs, p.orderBy = some kvs ∧ kvs ≠ []))
    ∧ (p.first = some Json.null → ¬ ∃ s ∈ queryArgsList p, ∃ t, s = "first" ++ ": " ++ t)
    ∧ (p.after = some Json.null → ¬ ∃ s ∈ queryArgsList p, ∃ t, s = "after" ++ ": " ++ t) := by
  have hfirst : (∃ s ∈ queryArgsList p, ∃ t, s = "first" ++ ": " ++ t) ↔
      (∃ v, p.first = some v ∧ v ≠ Json.null) := by
    constructor
    · rintro ⟨s, hs, t, rfl⟩
      rcases queryArgsList_mem_cases p _ hs with ⟨v, hf, hv, heq⟩ | ⟨v, hf, hv, heq⟩ |
        ⟨kvs, hf, hv, heq⟩ | ⟨kvs, hf, hv, heq⟩
      · exact ⟨v, hf, hv⟩
      · have heq' : "first" ++ ": " ++ t = "after" ++ ": " ++ toGraphQLLiteral v := heq
        exact absurd (argName_unique (by decide) (by decide) heq') (by decide)
      · have heq' : "first" ++ ": " ++ t =
            "filter" ++ ": " ++ toGraphQLLiteral (Json.obj kvs) := heq
        exact absurd (argName_unique (by decide) (by decide) heq') (by decide)
      · have heq' : "first" ++ ": " ++ t =
            "orderBy" ++ ": " ++ toGraphQLLiteral (Json.obj kvs) := heq
        exact absurd (argName_unique (by decide) (by decide) heq') (by decide)
    · rintro ⟨v, hf, hv⟩
      exact ⟨"first: " ++ toGraphQLLiteral v, first_arg_mem p v hf hv, toGraphQLLiteral v, rfl⟩
  have hafter : (∃ s ∈ queryArgsList p, ∃ t, s = "after" ++ ": " ++ t) ↔
      (∃ v, p.after = some v ∧ v ≠ Json.null) := by
    constructor
    · rintro ⟨s, hs, t, rfl⟩
      rcases queryArgsList_mem_cases p _ hs with ⟨v, hf, hv, heq⟩ | ⟨v, hf, hv, heq⟩ |
        ⟨kvs, hf, hv, heq⟩ | ⟨kvs, hf, hv, heq⟩
      · have heq' : "after" ++ ": " ++ t = "first" ++ ": " ++ toGraphQLLiteral v := heq
        exact absurd (argName_unique (by decide) (by decide) heq') (by decide)
      · exact ⟨v, hf, hv⟩
      · have heq' : "after" ++ ": " ++ t =
            "filter" ++ ": " ++ toGraphQLLiteral (Json.obj kvs) := heq
        exact absurd (argName_unique (by decide) (by decide) heq') (by decide)
      · have heq' : "after" ++ ": " ++ t =
            "orderBy" ++ ": " ++ toGraphQLLiteral (Json.obj kvs) := heq
        exact absurd (argName_unique (by decide) (by decide) heq') (by decide)
    · rintro ⟨v, hf, hv⟩
      exact ⟨"after: " ++ toGraphQLLiteral v, after_arg_mem p v hf hv, toGraphQLLiteral v, rfl⟩
  have hfilter : (∃ s ∈ queryArgsList p, ∃ t, s = "filter" ++ ": " ++ t) ↔
      (∃ kvs, p.filter = some kvs ∧ kvs ≠ []) := by
    constructor
    · rintro ⟨s, hs, t, rfl⟩
      rcases queryArgsList_mem_cases p _ hs with ⟨v, hf, hv, heq⟩ | ⟨v, hf, hv, heq⟩ |
        ⟨kvs, hf, hv, heq⟩ | ⟨kvs, hf, hv, heq⟩
      · have heq' : "filter" ++ ": " ++ t = "first" ++ ": " ++ toGraphQLLiteral v := heq
        exact absurd (argName_unique (by decide) (by decide) heq') (by decide)
      · have heq' : "filter" ++ ": " ++ t = "after" ++ ": " ++ toGraphQLLiteral v := heq
        exact absurd (argName_unique (by decide) (by decide) heq') (by decide)
      · exact ⟨kvs, hf, hv⟩
      · have heq' : "filter" ++ ": " ++ t =
            "orderBy" ++ ": " ++ toGraphQLLiteral (Json.obj kvs) := heq
        exact absurd (argName_unique (by decide) (by decide) heq') (by decide)
    · rintro ⟨kvs, hf, hk⟩
      exact ⟨"filter: " ++ toGraphQLLiteral (Json.obj kvs), filter_arg_mem p kvs hf hk,
        toGraphQLLiteral (Json.obj kvs), rfl⟩
  have horder : (∃ s ∈ queryArgsList p, ∃ t, s = "orderBy" ++ ": " ++ t) ↔
      (∃ kvs, p.orderBy = some kvs ∧ kvs ≠ []) := by
    constructor
    · rintro ⟨s, hs, t, rfl⟩
      rcases queryArgsList_mem_cases p _ hs with ⟨v, hf, hv, heq⟩ | ⟨v, hf, hv, heq⟩ |
        ⟨kvs, hf, hv, heq⟩ | ⟨kvs, hf, hv, heq⟩
      · have heq' : "orderBy" ++ ": " ++ t = "first" ++ ": " ++ toGraphQLLiteral v := heq
        exact absurd (argName_unique (by decide) (by decide) heq') (by decide)
      · have heq' : "orderBy" ++ ": " ++ t = "after" ++ ": " ++ toGraphQLLiteral v := heq
        exact absurd (argName_unique (by decide) (by decide) heq') (by decide)
      · have heq' : "orderBy" ++ ": " ++ t =
            "filter" ++ ": " ++ toGraphQLLiteral (Json.obj kvs) := heq
        exact absurd (argName_unique (by decide) (by decide) heq') (by decide)
      · exact ⟨kvs, hf, hv⟩
    · rintro ⟨kvs, hf, hk⟩
      exact ⟨"orderBy: " ++ toGraphQLLiteral (Json.obj kvs), orderBy_arg_mem p kvs hf hk,
        toGraphQLLiteral (Json.obj kvs), rfl⟩
  refine ⟨hfirst, fun v hf hv => first_arg_mem p v hf hv, hafter,
    fun v hf hv => after_arg_mem p v hf hv, hfilter, horder, ?_, ?_⟩
  · intro hnull hex
    obtain ⟨v, hf, hv⟩ := hfirst.mp hex
    rw [hnull] at hf
    injection hf with hf
    exact hv hf.symm
  · intro hnull hex
    obtain ⟨v, hf, hv⟩ := hafter.mp hex
    rw [hnull] at hf
    injection hf with hf
    exact hv hf.symm

/-- Witness for C3: with first = 10 and a one-entry filter, both
arguments are present. -/
theorem C3_argument_inclusion_witness :
    ("first: " ++ toGraphQLLiteral (Json.num 10)) ∈
      queryArgsList { first := some (Json.num 10), filter := some [("A", Json.num 1)] } :=
  (C3_argument_inclusion
      { first := some (Json.num 10), filter := some [("A", Json.num 1)] }).2.1
    (Json.num 10) rfl (by intro hc; exact Json.noConfusion hc)

end QueryBuilder
